import Mathlib

/-!
Verification of the core of the `apirestful-ecommerce` backend: order
placement against inventory, authentication/session lifecycle, user role
and deletion invariants, and the cache-aside product read path.

Python `Decimal` values are embedded as `ℚ` (exact, non-floating
arithmetic); Python `int` as `Int` or `Nat`; fallible operations return
`Except`/`Option`; the relational store is explicit state threaded
through each operation.
-/

namespace ECommerce

/-- Exact decimal money amounts (`decimal.Decimal` in the source). -/
abbrev Money := ℚ

/-- `src/models/products.py::Product` — the columns the order and product
services read.  `stock` is a Python `int` column with no database-level
non-negativity constraint, hence `Int`. -/
structure Product where
  id : Nat
  name : String
  description : Option String
  price : Money
  stock : Int
  category : String
  available : Bool
  deriving Repr, DecidableEq

/-- `src/schemas/orders.py::OrderItemCreate` — one requested (product_id,
quantity) pair of an order request. -/
structure OrderItemCreate where
  product_id : Nat
  quantity : Nat
  deriving Repr, DecidableEq

/-- `src/models/orders.py::OrderItem` — a persisted order line with its
price snapshot. -/
structure OrderItem where
  product_id : Nat
  quantity : Nat
  unit_price : Money
  deriving Repr, DecidableEq

/-- `src/models/orders.py::OrderState`. -/
inductive OrderState
  | pending | processing | shipped | delivered | cancelled
  deriving Repr, DecidableEq

/-- `src/models/orders.py::Order` — a persisted order row together with
its items. -/
structure PersistedOrder where
  order_id : Nat
  user_id : Nat
  total_price : Money
  state : OrderState
  items : List OrderItem
  deriving Repr, DecidableEq

/-- `src/core/exceptions.py` — the domain errors `create_order` raises,
with the payload fields each exception carries. -/
inductive OrderError
  | emptyOrder
  | productNotFound (product_id : Nat)
  | insufficientStock (product_id : Nat) (product_name : String)
      (requested : Nat) (available : Int)
  | productUnavailable (product_name : String)
  deriving Repr, DecidableEq

/-- The relational store as seen by the order service: product rows and
persisted order rows (each order owning its items). -/
structure Store where
  products : List Product
  orders : List PersistedOrder
  deriving Repr, DecidableEq

/-- `ProductRepository.get_many_by_ids_with_lock` —
`SELECT .. WHERE id IN product_ids FOR UPDATE`. -/
def get_many_by_ids_with_lock (db : List Product) (ids : List Nat) :
    List Product :=
  db.filter (fun p => ids.contains p.id)

/-- `product_map.get(pid)` where `product_map = {p.id: p for p in products}`;
primary keys are unique, so first match equals dict lookup. -/
def productMapGet (fetched : List Product) (pid : Nat) : Option Product :=
  fetched.find? (fun p => p.id == pid)

/-- The validation loop of `OrderService.create_order`
(`src/services/orders/service.py`): per item, in request order —
existence, then `product.stock < item.quantity`, then
`product.available`; the first violated check raises. -/
def validateItems (fetched : List Product) :
    List OrderItemCreate → Option OrderError
  | [] => none
  | item :: rest =>
    match productMapGet fetched item.product_id with
    | none => some (.productNotFound item.product_id)
    | some product =>
      if product.stock < (item.quantity : Int) then
        some (.insufficientStock product.id product.name
          item.quantity product.stock)
      else if !product.available then
        some (.productUnavailable product.name)
      else validateItems fetched rest

/-- The item-building loop of `create_order`: `OrderItem(product_id=product.id,
quantity=item.quantity, unit_price=Decimal(str(product.price)))`.  The
`none` outcome models the `KeyError` a `product_map[...]` access would
raise; it cannot occur once validation has passed. -/
def buildItems (fetched : List Product) :
    List OrderItemCreate → Option (List OrderItem)
  | [] => some []
  | item :: rest =>
    match productMapGet fetched item.product_id with
    | none => none
    | some product =>
      (buildItems fetched rest).map (fun tl =>
        { product_id := product.id, quantity := item.quantity,
          unit_price := product.price } :: tl)

/-- `total_price = Decimal("0.0")` then `total_price += price * quantity`
over the loop. -/
def totalOf (oitems : List OrderItem) : Money :=
  oitems.foldl (fun acc oi => acc + oi.unit_price * (oi.quantity : Money)) 0

/-- One `product.stock -= item.quantity` on the locked row. -/
def decrementStock (db : List Product) (item : OrderItemCreate) :
    List Product :=
  db.map (fun p =>
    if p.id == item.product_id then
      { p with stock := p.stock - (item.quantity : Int) }
    else p)

/-- The in-memory stock mutations of the second loop, committed with the
transaction. -/
def applyDecrements (db : List Product) (items : List OrderItemCreate) :
    List Product :=
  items.foldl decrementStock db

/-- `OrderService.create_order` (`src/services/orders/service.py`): the
whole request runs in one transaction, so a raised domain error leaves
the store exactly as it was; on success the mutated product rows and the
new order (state `pending`, autoincremented id) are committed together. -/
def create_order (s : Store) (user_id : Nat) (items : List OrderItemCreate) :
    Except OrderError PersistedOrder × Store :=
  if items.isEmpty then (.error .emptyOrder, s)
  else
    match validateItems
        (get_many_by_ids_with_lock s.products
          (items.map (fun i => i.product_id))) items with
    | some e => (.error e, s)
    | none =>
      match buildItems
          (get_many_by_ids_with_lock s.products
            (items.map (fun i => i.product_id))) items with
      | none => (.error (.productNotFound 0), s)
      | some order_items =>
        let new_order : PersistedOrder :=
          { order_id := s.orders.length + 1, user_id := user_id,
            total_price := totalOf order_items, state := .pending,
            items := order_items }
        (.ok new_order,
         { products := applyDecrements s.products items,
           orders := s.orders ++ [new_order] })

/-- `OrderRepository.get_by_id_and_user` — both conditions sit in the
`WHERE` clause of the one lookup query. -/
def get_by_id_and_user (orders : List PersistedOrder)
    (order_id user_id : Nat) : Option PersistedOrder :=
  orders.find? (fun o => o.order_id == order_id && o.user_id == user_id)

/-- `OrderService.get_order_by_id_for_user`. -/
def get_order_by_id_for_user (s : Store) (order_id user_id : Nat) :
    Option PersistedOrder :=
  get_by_id_and_user s.orders order_id user_id

/-- `src/models/users.py::UserRole`. -/
inductive UserRole
  | admin | user
  deriving Repr, DecidableEq

/-- Modelled from the spec: `src/core/security.py` (imported by the
authentication and user services but absent from the sources) provides
bcrypt hashing.  Per §4.2, a hash verifies exactly against the secret it
was produced from, so a hash is embedded as a value remembering its
preimage. -/
structure BcryptHash (α : Type) where
  preimage : α
  deriving Repr, DecidableEq

/-- Modelled from the spec: `get_password_hash` of `src/core/security.py`. -/
def get_password_hash {α : Type} (secret : α) : BcryptHash α :=
  ⟨secret⟩

/-- Modelled from the spec: `verify_password` of `src/core/security.py` —
true iff the presented secret is the hash's preimage. -/
def verify_password {α : Type} [DecidableEq α] (secret : α)
    (h : BcryptHash α) : Bool :=
  secret == h.preimage

/-- JWT token type claim (`"type"`: `"access"` or `"refresh"`). -/
inductive TokenType
  | access | refresh
  deriving Repr, DecidableEq

/-- A decoded JWT payload: `sub` (`payload.get("sub")`, possibly absent),
the `type` claim, and the unique `jti` (uuid4, modelled as a nonce). -/
structure Token where
  sub : Option String
  type : TokenType
  jti : Nat
  deriving Repr, DecidableEq

/-- `src/models/users.py::User` — the columns the user and authentication
services read; `orders` is the loaded relationship (ids of owned orders). -/
structure DbUser where
  id : Nat
  username : String
  role : UserRole
  hashed_password : BcryptHash String
  hashed_refresh_token : Option (BcryptHash Token)
  available : Bool
  orders : List Nat
  deriving Repr, DecidableEq

/-- Lookup by username (`get_user` / `get_user_by_username`;
usernames carry a unique constraint). -/
def get_user (db : List DbUser) (username : String) : Option DbUser :=
  db.find? (fun u => u.username == username)

/-- `select(func.count(User.id)).where(User.role == UserRole.admin)`. -/
def adminCount (db : List DbUser) : Nat :=
  (db.filter (fun u => u.role == UserRole.admin)).length

/-- `src/core/exceptions.py` — errors raised by the user service. -/
inductive UserError
  | lastAdmin (username action : String)
  | uselessOperation (username : String)
  | userHasOrders (username : String)
  deriving Repr, DecidableEq

/-- `updated_new_role` (`src/services/users/service.py`): `ok none` is the
not-found outcome; a raised error rolls the transaction back, leaving the
user table as it was. -/
def updated_new_role (db : List DbUser) (username : String)
    (role : UserRole) : Except UserError (Option DbUser) × List DbUser :=
  match get_user db username with
  | none => (.ok none, db)
  | some user_to_change =>
    if user_to_change.role = role then
      (.error (.uselessOperation username), db)
    else if user_to_change.role = UserRole.admin ∧ role = UserRole.user ∧
        adminCount db ≤ 1 then
      (.error (.lastAdmin username "demote"), db)
    else
      (.ok (some { user_to_change with role := role }),
       db.map (fun u =>
         if u.username == username then { u with role := role } else u))

/-- `get_delete_user` (`src/services/users/service.py`): the source
returns `None` on the not-found path and again (`return None`) after a
successful `db.delete`. -/
def get_delete_user (db : List DbUser) (id : Nat) :
    Except UserError (Option DbUser) × List DbUser :=
  match db.find? (fun u => u.id == id) with
  | none => (.ok none, db)
  | some user_to_delete =>
    if user_to_delete.orders ≠ [] then
      (.error (.userHasOrders user_to_delete.username), db)
    else if user_to_delete.role = UserRole.admin ∧ adminCount db ≤ 1 then
      (.error (.lastAdmin user_to_delete.username "delete"), db)
    else
      (.ok none, db.filter (fun u => u.id ≠ id))

/-- `delete_user` route (`src/routers/users.py`): a `None` service result
raises 404; a non-`None` result returns 204 (No Content); raised domain
errors map to 409 via the `src/main.py` conflict handler. -/
def delete_user_route (db : List DbUser) (id : Nat) : Nat × List DbUser :=
  match get_delete_user db id with
  | (.error _, db') => (409, db')
  | (.ok none, db') => (404, db')
  | (.ok (some _), db') => (204, db')

/-- HTTP-level failure: status code plus `detail` message. -/
structure HttpError where
  status : Nat
  detail : String
  deriving Repr, DecidableEq

/-- The shared generic 401 used for every credential failure. -/
def credentials_exception : HttpError :=
  ⟨401, "Could not validate credentials"⟩

/-- `AuthenticationService.authenticate_user`
(`src/services/authentication/service.py`). -/
def authenticate_user (db : List DbUser) (username password : String) :
    Except HttpError DbUser :=
  match get_user db username with
  | none => .error credentials_exception
  | some user =>
    if verify_password password user.hashed_password then .ok user
    else .error credentials_exception

/-- `create_refresh_token(data={"sub": username, "type": "refresh"})`; the
nonce argument stands for the fresh uuid4 `jti`. -/
def create_refresh_token (username : String) (n : Nat) : Token :=
  ⟨some username, .refresh, n⟩

/-- `create_access_token(data={"sub": username, "type": "access"})`. -/
def create_access_token (username : String) (n : Nat) : Token :=
  ⟨some username, .access, n⟩

/-- A presented JWT as `jwt.decode` classifies it: a fully verified
payload (signature, issuer, audience, expiry all pass), an expired
signature (`ExpiredSignatureError`), or otherwise invalid
(`InvalidTokenError`). -/
inductive Presented
  | valid (t : Token)
  | expired
  | malformed
  deriving Repr, DecidableEq

/-- `get_current_user` (`src/auth/dependencies.py`): note the dedicated
`except jwt.ExpiredSignatureError` branch with its own detail message. -/
def get_current_user (db : List DbUser) (tok : Presented) :
    Except HttpError DbUser :=
  match tok with
  | .expired => .error ⟨401, "Token has expired"⟩
  | .malformed => .error credentials_exception
  | .valid t =>
    if t.type ≠ TokenType.access then .error credentials_exception
    else
      match t.sub with
      | none => .error credentials_exception
      | some username =>
        match get_user db username with
        | none => .error credentials_exception
        | some u => .ok u

/-- `get_login_for_access_token`: authenticate, mint an access/refresh
pair, store the bcrypt hash of the new refresh token on the user row
(overwriting any prior session). -/
def get_login_for_access_token (db : List DbUser)
    (username password : String) (n : Nat) :
    Except HttpError (Token × Token × List DbUser) :=
  match authenticate_user db username password with
  | .error e => .error e
  | .ok user =>
    let access_token := create_access_token user.username n
    let refresh_token := create_refresh_token user.username (n + 1)
    .ok (access_token, refresh_token,
      db.map (fun u =>
        if u.username == user.username then
          { u with
            hashed_refresh_token := some (get_password_hash refresh_token) }
        else u))

/-- `get_refresh_access_token` (`src/services/authentication/service.py`):
its single `except InvalidTokenError` also catches expired signatures
(`ExpiredSignatureError` subclasses `InvalidTokenError`), so every decode
failure is the same generic 401. -/
def get_refresh_access_token (db : List DbUser) (req : Presented)
    (n : Nat) : Except HttpError (Token × Token × List DbUser) :=
  match req with
  | .expired => .error credentials_exception
  | .malformed => .error credentials_exception
  | .valid t =>
    if t.type ≠ TokenType.refresh then .error credentials_exception
    else
      match t.sub with
      | none => .error credentials_exception
      | some username =>
        match get_user db username with
        | none => .error credentials_exception
        | some user =>
          match user.hashed_refresh_token with
          | none => .error credentials_exception
          | some stored =>
            if verify_password t stored then
              let new_refresh := create_refresh_token user.username n
              let new_access := create_access_token user.username (n + 1)
              .ok (new_access, new_refresh,
                db.map (fun u =>
                  if u.username == username then
                    { u with
                      hashed_refresh_token := some (get_password_hash new_refresh) }
                  else u))
            else .error credentials_exception

/-- `AuthenticationService.logout`: clears the stored refresh-token hash
of the user. -/
def logout (db : List DbUser) (username : String) : List DbUser :=
  db.map (fun u =>
    if u.username == username then { u with hashed_refresh_token := none }
    else u)

/-- One cached `product:{id}` entry: the serialized `ReadProduct`
snapshot and the expiry (`ex=`) it was set with, in seconds. -/
structure CacheEntry where
  snapshot : Product
  ttl : Nat
  deriving Repr, DecidableEq

/-- The key-value cache; keys `product:{id}` are modelled by the id
(the formatting is injective on ids). -/
structure Cache where
  entries : List (Nat × CacheEntry)
  deriving Repr, DecidableEq

/-- `redis_client.get(cache_key)`. -/
def Cache.read (c : Cache) (id : Nat) : Option CacheEntry :=
  (c.entries.find? (fun e => e.1 == id)).map (fun e => e.2)

/-- `redis_client.set(name=cache_key, value=.., ex=ttl)` — overwrites any
prior entry for the key. -/
def Cache.write (c : Cache) (id : Nat) (e : CacheEntry) : Cache :=
  ⟨(id, e) :: c.entries.filter (fun x => x.1 ≠ id)⟩

/-- `redis_client.delete(cache_key)`. -/
def Cache.del (c : Cache) (id : Nat) : Cache :=
  ⟨c.entries.filter (fun x => x.1 ≠ id)⟩

/-- Observable outcome of `get_product_by_id`: the returned value, the
cache afterwards, and whether the database was queried. -/
structure ReadOutcome where
  value : Option Product
  cache : Cache
  storeRead : Bool
  deriving Repr, DecidableEq

/-- `get_product_by_id` (`src/services/products/service.py`): cache hit
returns the deserialized snapshot without querying the store; a miss
queries the store and, only when the product exists, writes the snapshot
back with `ex=600` before returning; a miss on a nonexistent id caches
nothing. -/
def get_product_by_id (db : List Product) (c : Cache) (product_id : Nat) :
    ReadOutcome :=
  match c.read product_id with
  | some cached => ⟨some cached.snapshot, c, false⟩
  | none =>
    match db.find? (fun p => p.id == product_id) with
    | some product_from_db =>
      ⟨some product_from_db,
       c.write product_id ⟨product_from_db, 600⟩, true⟩
    | none => ⟨none, c, true⟩

/-- `src/schemas/products.py::UpdateProduct` — every field optional
(`exclude_unset` partial-update semantics). -/
structure UpdateProduct where
  name : Option String
  category : Option String
  price : Option Money
  stock : Option Int
  description : Option (Option String)
  available : Option Bool
  deriving Repr, DecidableEq

/-- `setattr(updated_product, key, value)` for each supplied field. -/
def applyUpdate (p : Product) (u : UpdateProduct) : Product :=
  { p with
    name := u.name.getD p.name
    category := u.category.getD p.category
    price := u.price.getD p.price
    stock := u.stock.getD p.stock
    description := u.description.getD p.description
    available := u.available.getD p.available }

/-- `get_updated_product` (`src/services/products/service.py`): when the
product exists, mutate only the supplied fields and delete (not refresh)
the cache entry for that id; when it does not, nothing changes. -/
def get_updated_product (db : List Product) (c : Cache) (id : Nat)
    (u : UpdateProduct) : Option Product × List Product × Cache :=
  match db.find? (fun p => p.id == id) with
  | none => (none, db, c)
  | some updated_product =>
    let p' := applyUpdate updated_product u
    (some p',
     db.map (fun q => if q.id == id then applyUpdate q u else q),
     c.del id)


lemma productMapGet_some {fetched : List Product} {pid : Nat} {p : Product}
    (h : productMapGet fetched pid = some p) : p ∈ fetched ∧ p.id = pid := by
  refine ⟨List.mem_of_find?_eq_some h, ?_⟩
  have := List.find?_some h
  simpa using this

lemma lock_subset {db : List Product} {ids : List Nat} :
    ∀ p ∈ get_many_by_ids_with_lock db ids, p ∈ db := by
  intro p hp
  exact (List.mem_filter.mp hp).1

lemma validateItems_none_buildItems {fetched : List Product} :
    ∀ {items : List OrderItemCreate}, validateItems fetched items = none →
      ∃ l, buildItems fetched items = some l := by
  intro items
  induction items with
  | nil => exact fun _ => ⟨[], rfl⟩
  | cons item rest ih =>
    intro h
    rw [validateItems] at h
    cases hm : productMapGet fetched item.product_id with
    | none => rw [hm] at h; exact absurd h (by simp)
    | some p =>
      rw [hm] at h
      by_cases h1 : p.stock < (item.quantity : Int)
      · simp [h1] at h
      · by_cases h2 : p.available
        · simp [h1, h2] at h
          obtain ⟨l, hl⟩ := ih h
          refine ⟨(⟨p.id, item.quantity, p.price⟩ : OrderItem) :: l, ?_⟩
          simp [buildItems, hm, hl]
        · simp [h1, h2] at h

lemma buildItems_mem {fetched : List Product} :
    ∀ {items : List OrderItemCreate} {l : List OrderItem},
      buildItems fetched items = some l →
      ∀ oi ∈ l, ∃ p, p ∈ fetched ∧ oi.product_id = p.id ∧
        oi.unit_price = p.price := by
  intro items
  induction items with
  | nil =>
    intro l h oi hoi
    rw [buildItems] at h
    cases h
    cases hoi
  | cons item rest ih =>
    intro l h oi hoi
    rw [buildItems] at h
    cases hm : productMapGet fetched item.product_id with
    | none => rw [hm] at h; cases h
    | some p =>
      rw [hm] at h
      cases hrest : buildItems fetched rest with
      | none => rw [hrest] at h; cases h
      | some tl =>
        rw [hrest] at h
        simp only [Option.map_some] at h
        cases h
        rcases List.mem_cons.mp hoi with h1 | h2
        · subst h1; exact ⟨p, (productMapGet_some hm).1, rfl, rfl⟩
        · exact ih hrest oi h2

lemma totalOf_eq_sum (l : List OrderItem) :
    totalOf l = (l.map (fun oi => oi.unit_price * (oi.quantity : Money))).sum := by
  suffices h : ∀ (a : Money),
      l.foldl (fun acc oi => acc + oi.unit_price * (oi.quantity : Money)) a =
        a + (l.map (fun oi => oi.unit_price * (oi.quantity : Money))).sum by
    simpa [totalOf] using h 0
  induction l with
  | nil => intro a; simp
  | cons x xs ih => intro a; simp [ih, add_assoc]


/-- C2: `create_order` is all-or-nothing — whenever it raises any domain
error, the store (product rows and persisted Order/OrderItem rows) is
exactly what it was before the call; all validation precedes any
mutation. -/
theorem C2_create_order_all_or_nothing (s : Store) (uid : Nat)
    (items : List OrderItemCreate) (e : OrderError) (s' : Store)
    (h : create_order s uid items = (.error e, s')) : s' = s := by
  rw [create_order] at h
  split at h
  · injection h with h1 h2; exact h2.symm
  · split at h
    · injection h with h1 h2; exact h2.symm
    · split at h
      · injection h with h1 h2; exact h2.symm
      · injection h with h1 h2; cases h1

/-- C3: for every successfully created order, `total_price` equals the
sum over its items of `unit_price * quantity` in exact rational
(decimal) arithmetic, and every item's `unit_price` is the price of the
matching product row in the store at creation time. -/
theorem C3_total_price (s : Store) (uid : Nat)
    (items : List OrderItemCreate) (ord : PersistedOrder) (s' : Store)
    (h : create_order s uid items = (.ok ord, s')) :
    ord.total_price =
      (ord.items.map (fun oi => oi.unit_price * (oi.quantity : Money))).sum ∧
    ∀ oi ∈ ord.items, ∃ p, p ∈ s.products ∧ oi.product_id = p.id ∧
      oi.unit_price = p.price := by
  rw [create_order] at h
  split at h
  · injection h with h1 h2; cases h1
  · split at h
    · injection h with h1 h2; cases h1
    · split at h
      · injection h with h1 h2; cases h1
      · rename_i order_items hb
        injection h with h1 h2
        injection h1 with h1
        subst h1
        refine ⟨totalOf_eq_sum _, ?_⟩
        intro oi hoi
        obtain ⟨p, hp, hid, hpr⟩ := buildItems_mem hb oi hoi
        exact ⟨p, lock_subset p hp, hid, hpr⟩


/-- C1 (code bug): with product 1 at stock 5 and price 9.99, an order
repeating product 1 in two items of quantity 3 each is accepted
(`isOk`), and the committed stock is -1 — the per-item stock check never
compares the summed quantity, so the claimed `InsufficientStock` failure
does not happen and stock goes negative. -/
theorem C1_bug :
    ((create_order ⟨[⟨1, "P", none, (999 : ℚ)/100, 5, "general", true⟩], []⟩
        7 [⟨1, 3⟩, ⟨1, 3⟩]).1.isOk = true) ∧
    (create_order ⟨[⟨1, "P", none, (999 : ℚ)/100, 5, "general", true⟩], []⟩
        7 [⟨1, 3⟩, ⟨1, 3⟩]).2.products =
      [⟨1, "P", none, (999 : ℚ)/100, -1, "general", true⟩] := by
  constructor <;>
    simp [create_order, validateItems, buildItems, productMapGet,
      get_many_by_ids_with_lock, applyDecrements, decrementStock, totalOf,
      Except.isOk, Except.toBool, List.find?, List.filter]

lemma validate_ne_emptyOrder {fetched : List Product} :
    ∀ {items : List OrderItemCreate},
      validateItems fetched items ≠ some OrderError.emptyOrder := by
  intro items
  induction items with
  | nil => simp [validateItems]
  | cons item rest ih =>
    rw [validateItems]
    cases hm : productMapGet fetched item.product_id with
    | none => simp
    | some p =>
      by_cases h1 : p.stock < (item.quantity : Int)
      · simp [h1]
      · by_cases h2 : p.available
        · simpa [h1, h2] using ih
        · simp [h1, h2]

lemma validate_none_iff {fetched : List Product} :
    ∀ {items : List OrderItemCreate},
      validateItems fetched items = none ↔
        ∀ i ∈ items, ∃ p, productMapGet fetched i.product_id = some p ∧
          (i.quantity : Int) ≤ p.stock ∧ p.available = true := by
  intro items
  induction items with
  | nil => simp [validateItems]
  | cons item rest ih =>
    rw [validateItems]
    cases hm : productMapGet fetched item.product_id with
    | none => simp [hm]
    | some p =>
      by_cases h1 : p.stock < (item.quantity : Int)
      · simp [hm, h1, ih]
      · by_cases h2 : p.available
        · simp [hm, h1, h2, ih, not_lt.mp h1]
        · simp [hm, h1, h2]

lemma validate_notFound {fetched : List Product} {pid : Nat} :
    ∀ {items : List OrderItemCreate},
      validateItems fetched items = some (OrderError.productNotFound pid) →
      ∃ i ∈ items, i.product_id = pid ∧ productMapGet fetched pid = none := by
  intro items
  induction items with
  | nil => simp [validateItems]
  | cons item rest ih =>
    intro h
    rw [validateItems] at h
    cases hm : productMapGet fetched item.product_id with
    | none =>
      rw [hm] at h
      simp only [Option.some.injEq] at h
      cases h
      exact ⟨item, List.mem_cons_self item rest, rfl, hm⟩
    | some p =>
      rw [hm] at h
      by_cases h1 : p.stock < (item.quantity : Int)
      · simp [h1] at h
      · by_cases h2 : p.available
        · simp [h1, h2] at h
          obtain ⟨i, hi, h3, h4⟩ := ih h
          exact ⟨i, List.mem_cons_of_mem item hi, h3, h4⟩
        · simp [h1, h2] at h

lemma validate_insufficient {fetched : List Product}
    {pid : Nat} {name : String} {req : Nat} {avail : Int} :
    ∀ {items : List OrderItemCreate},
      validateItems fetched items =
        some (OrderError.insufficientStock pid name req avail) →
      ∃ i ∈ items, ∃ p, productMapGet fetched i.product_id = some p ∧
        p.id = pid ∧ p.name = name ∧ i.quantity = req ∧ p.stock = avail ∧
        p.stock < (i.quantity : Int) := by
  intro items
  induction items with
  | nil => simp [validateItems]
  | cons item rest ih =>
    intro h
    rw [validateItems] at h
    cases hm : productMapGet fetched item.product_id with
    | none => simp [hm] at h
    | some p =>
      rw [hm] at h
      by_cases h1 : p.stock < (item.quantity : Int)
      · simp only [h1, if_true, Option.some.injEq] at h
        cases h
        exact ⟨item, List.mem_cons_self item rest, p, hm, rfl, rfl, rfl, rfl, h1⟩
      · by_cases h2 : p.available
        · simp [h1, h2] at h
          obtain ⟨i, hi, rest'⟩ := ih h
          exact ⟨i, List.mem_cons_of_mem item hi, rest'⟩
        · simp [h1, h2] at h

lemma validate_unavailable {fetched : List Product} {name : String} :
    ∀ {items : List OrderItemCreate},
      validateItems fetched items =
        some (OrderError.productUnavailable name) →
      ∃ i ∈ items, ∃ p, productMapGet fetched i.product_id = some p ∧
        p.name = name ∧ (i.quantity : Int) ≤ p.stock ∧
        p.available = false := by
  intro items
  induction items with
  | nil => simp [validateItems]
  | cons item rest ih =>
    intro h
    rw [validateItems] at h
    cases hm : productMapGet fetched item.product_id with
    | none => simp [hm] at h
    | some p =>
      rw [hm] at h
      by_cases h1 : p.stock < (item.quantity : Int)
      · simp [h1] at h
      · by_cases h2 : p.available
        · simp [h1, h2] at h
          obtain ⟨i, hi, rest'⟩ := ih h
          exact ⟨i, List.mem_cons_of_mem item hi, rest'⟩
        · simp only [h1, if_false, h2, Bool.not_eq_true', if_true,
            Option.some.injEq] at h
          cases h
          refine ⟨item, List.mem_cons_self item rest, p, hm, rfl,
            not_lt.mp h1, ?_⟩
          simpa using h2


lemma create_order_error_iff (s : Store) (uid : Nat) (a : OrderItemCreate)
    (as : List OrderItemCreate) (e : OrderError) :
    (create_order s uid (a :: as)).1 = .error e ↔
      validateItems (get_many_by_ids_with_lock s.products
        ((a :: as).map (fun i => i.product_id))) (a :: as) = some e := by
  rw [create_order]
  simp only [List.isEmpty_cons, Bool.false_eq_true, if_false]
  cases hv : validateItems (get_many_by_ids_with_lock s.products
      ((a :: as).map (fun i => i.product_id))) (a :: as) with
  | some e' => simp
  | none =>
    obtain ⟨l, hl⟩ := validateItems_none_buildItems hv
    rw [hl]
    simp

lemma create_order_ok_iff (s : Store) (uid : Nat) (a : OrderItemCreate)
    (as : List OrderItemCreate) :
    (∃ o, (create_order s uid (a :: as)).1 = .ok o) ↔
      validateItems (get_many_by_ids_with_lock s.products
        ((a :: as).map (fun i => i.product_id))) (a :: as) = none := by
  rw [create_order]
  simp only [List.isEmpty_cons, Bool.false_eq_true, if_false]
  cases hv : validateItems (get_many_by_ids_with_lock s.products
      ((a :: as).map (fun i => i.product_id))) (a :: as) with
  | some e' => simp
  | none =>
    obtain ⟨l, hl⟩ := validateItems_none_buildItems hv
    rw [hl]
    simp

/-- C6: `create_order` validation order and error selection —
`EmptyOrder` exactly on an empty item list; a `ProductNotFound pid`
outcome names a requested id absent from the fetched set; an
`InsufficientStock` outcome carries the product id, name, requested
quantity and available stock of an item whose product exists (existence
checked before stock) with stock < requested; a `ProductUnavailable`
outcome concerns an existing product with sufficient stock (stock
checked before availability) that is unavailable; and the call succeeds
exactly when the list is non-empty and every item's product exists with
enough stock and is available. -/
theorem C6_validation (s : Store) (uid : Nat)
    (items : List OrderItemCreate) :
    ((create_order s uid items).1 = .error .emptyOrder ↔ items = [])
  ∧ (∀ pid, (create_order s uid items).1 = .error (.productNotFound pid) →
      ∃ i ∈ items, i.product_id = pid ∧
        productMapGet (get_many_by_ids_with_lock s.products
          (items.map (fun j => j.product_id))) pid = none)
  ∧ (∀ pid name req avail, (create_order s uid items).1 =
        .error (.insufficientStock pid name req avail) →
      ∃ i ∈ items, ∃ p, productMapGet (get_many_by_ids_with_lock s.products
          (items.map (fun j => j.product_id))) i.product_id = some p ∧
        p.id = pid ∧ p.name = name ∧ i.quantity = req ∧ p.stock = avail ∧
        p.stock < (i.quantity : Int))
  ∧ (∀ name, (create_order s uid items).1 =
        .error (.productUnavailable name) →
      ∃ i ∈ items, ∃ p, productMapGet (get_many_by_ids_with_lock s.products
          (items.map (fun j => j.product_id))) i.product_id = some p ∧
        p.name = name ∧ (i.quantity : Int) ≤ p.stock ∧ p.available = false)
  ∧ ((∃ o, (create_order s uid items).1 = .ok o) ↔
      items ≠ [] ∧ ∀ i ∈ items, ∃ p,
        productMapGet (get_many_by_ids_with_lock s.products
          (items.map (fun j => j.product_id))) i.product_id = some p ∧
        (i.quantity : Int) ≤ p.stock ∧ p.available = true) := by
  cases items with
  | nil =>
    refine ⟨by simp [create_order], ?_, ?_, ?_, ?_⟩
    · intro pid h
      rw [create_order] at h
      simp at h
    · intro pid name req avail h
      rw [create_order] at h
      simp at h
    · intro name h
      rw [create_order] at h
      simp at h
    · constructor
      · rintro ⟨o, h⟩
        rw [create_order] at h
        simp at h
      · rintro ⟨h, -⟩
        exact absurd rfl h
  | cons a as =>
    refine ⟨?_, ?_, ?_, ?_, ?_⟩
    · rw [create_order_error_iff]
      constructor
      · intro h
        exact absurd h validate_ne_emptyOrder
      · intro h
        cases h
    · intro pid h
      exact validate_notFound ((create_order_error_iff s uid a as _).mp h)
    · intro pid name req avail h
      exact validate_insufficient ((create_order_error_iff s uid a as _).mp h)
    · intro name h
      exact validate_unavailable ((create_order_error_iff s uid a as _).mp h)
    · rw [create_order_ok_iff, validate_none_iff]
      simp


lemma find?_split {α : Type} {p : α → Bool} :
    ∀ {l : List α} {u : α}, l.find? p = some u →
      p u = true ∧ ∃ l1 l2, l = l1 ++ u :: l2 ∧ ∀ w ∈ l1, p w = false := by
  intro l
  induction l with
  | nil => intro u h; cases h
  | cons a as ih =>
    intro u h
    rw [List.find?] at h
    by_cases ha : p a
    · simp only [ha] at h
      cases h
      exact ⟨ha, [], as, rfl, by simp⟩
    · simp only [Bool.not_eq_true] at ha
      simp only [ha] at h
      obtain ⟨hu, l1, l2, hsplit, hl1⟩ := ih h
      refine ⟨hu, a :: l1, l2, by rw [hsplit]; rfl, ?_⟩
      intro w hw
      rcases List.mem_cons.mp hw with rfl | hw
      · exact ha
      · exact hl1 w hw

lemma adminCount_append (l1 l2 : List DbUser) :
    adminCount (l1 ++ l2) = adminCount l1 + adminCount l2 := by
  simp [adminCount, List.filter_append]

lemma adminCount_cons (u : DbUser) (l : List DbUser) :
    adminCount (u :: l) =
      (if u.role = UserRole.admin then 1 else 0) + adminCount l := by
  by_cases h : u.role = UserRole.admin <;>
    simp [adminCount, List.filter_cons, h, Nat.add_comm]

/-- C10 (code bug): deleting existing user 2 (no orders, not the sole
admin) removes the row from the store, yet `get_delete_user` returns the
`None` also used for not-found, so the route answers 404 — success is
not distinguishable from not-found, contrary to the function's own
docstring and the 204 the test suite asserts. -/
theorem C10_bug :
    get_delete_user
        [⟨1, "root", UserRole.admin, ⟨"pw1"⟩, none, true, []⟩,
         ⟨2, "bob", UserRole.user, ⟨"pw2"⟩, none, true, []⟩] 2 =
      (.ok none, [⟨1, "root", UserRole.admin, ⟨"pw1"⟩, none, true, []⟩]) ∧
    delete_user_route
        [⟨1, "root", UserRole.admin, ⟨"pw1"⟩, none, true, []⟩,
         ⟨2, "bob", UserRole.user, ⟨"pw2"⟩, none, true, []⟩] 2 =
      (404, [⟨1, "root", UserRole.admin, ⟨"pw1"⟩, none, true, []⟩]) := by
  constructor <;> rfl

/-- C5 counterexample: with exactly one admin who owns an order,
deleting that admin fails with `UserHasOrdersError`, not with
`LastAdminError(action=\"delete\")` as the claim states. -/
theorem C5_counterexample :
    get_delete_user [⟨1, "root", UserRole.admin, ⟨"pw1"⟩, none, true, [42]⟩] 1 =
      (.error (.userHasOrders "root"),
        [⟨1, "root", UserRole.admin, ⟨"pw1"⟩, none, true, [42]⟩]) ∧
    adminCount [⟨1, "root", UserRole.admin, ⟨"pw1"⟩, none, true, [42]⟩] = 1 ∧
    (UserError.userHasOrders "root") ≠ (UserError.lastAdmin "root" "delete") := by
  refine ⟨rfl, rfl, by decide⟩


lemma map_eq_self_of_id {α : Type} {l : List α} {f : α → α}
    (h : ∀ a ∈ l, f a = a) : l.map f = l := by
  conv_rhs => rw [show l = l.map id from (List.map_id l).symm]
  exact List.map_congr_left h

lemma nodup_mid {α β : Type} {l1 l2 : List α} {u : α} {g : α → β}
    (hnd : ((l1 ++ u :: l2).map g).Nodup) : ∀ w ∈ l2, g w ≠ g u := by
  rw [List.map_append, List.map_cons] at hnd
  have h2 := hnd.of_append_right
  have h3 := (List.nodup_cons.mp h2).1
  intro w hw he
  exact h3 (he ▸ List.mem_map_of_mem g hw)

lemma admin_preserved_update (db : List DbUser)
    (hnd : (db.map (fun w => w.username)).Nodup)
    (hge : 1 ≤ adminCount db) (username : String) (role : UserRole) :
    1 ≤ adminCount (updated_new_role db username role).2 := by
  rw [updated_new_role]
  cases hg : get_user db username with
  | none => simpa using hge
  | some u =>
    by_cases h1 : u.role = role
    · simpa [h1] using hge
    · by_cases h2 : u.role = UserRole.admin ∧ role = UserRole.user ∧
          adminCount db ≤ 1
      · simpa [h1, h2] using hge
      · simp only [h1, h2, if_false]
        obtain ⟨hpu, l1, l2, hsplit, hl1⟩ := find?_split hg
        have huu : u.username = username := by simpa using hpu
        subst hsplit
        have hl2 : ∀ w ∈ l2, w.username ≠ username := fun w hw =>
          huu ▸ nodup_mid hnd w hw
        rw [List.map_append, List.map_cons]
        rw [map_eq_self_of_id (fun a ha => by simp [hl1 a ha])]
        rw [map_eq_self_of_id (fun a ha => by
          simp [(by simpa using hl2 a ha : (a.username == username) = false)])]
        rw [show ((if u.username == username then { u with role := role }
            else u) : DbUser) = { u with role := role } by simp [huu]]
        rw [adminCount_append, adminCount_cons] at hge ⊢
        cases hr : role with
        | admin =>
          have hradm : ({ u with role := UserRole.admin } : DbUser).role =
              UserRole.admin := rfl
          rw [hradm, if_pos rfl]
          omega
        | user =>
          cases hur : u.role with
          | user => exact absurd (hur.trans hr.symm) h1
          | admin =>
            rw [hr, hur] at h2
            simp only [true_and, and_true] at h2
            have hcnt : ¬ adminCount (l1 ++ u :: l2) ≤ 1 := by
              rw [adminCount_append, adminCount_cons]
              exact fun hle => h2 (by
                rw [adminCount_append, adminCount_cons]
                exact hle)
            rw [adminCount_append, adminCount_cons] at hcnt
            simp only [hur, if_pos] at hcnt
            simp only [hur] at hge
            simp only [reduceIte]
            omega

lemma admin_preserved_delete (db : List DbUser)
    (hnd : (db.map (fun w => w.id)).Nodup)
    (hge : 1 ≤ adminCount db) (id : Nat) :
    1 ≤ adminCount (get_delete_user db id).2 := by
  rw [get_delete_user]
  cases hg : db.find? (fun w => w.id == id) with
  | none => simpa using hge
  | some u =>
    by_cases h1 : u.orders ≠ []
    · simpa [h1] using hge
    · by_cases h2 : u.role = UserRole.admin ∧ adminCount db ≤ 1
      · simpa [h1, h2] using hge
      · simp only [h1, h2, if_false]
        obtain ⟨hpu, l1, l2, hsplit, hl1⟩ := find?_split hg
        have hid : u.id = id := by simpa using hpu
        subst hsplit
        have hl2 : ∀ w ∈ l2, w.id ≠ id := fun w hw =>
          hid ▸ nodup_mid hnd w hw
        have h1f : l1.filter (fun w => !decide (w.id = id)) = l1 :=
          List.filter_eq_self.mpr (fun a ha => by
            have hne : a.id ≠ id := by simpa using hl1 a ha
            simp [hne])
        have h2f : l2.filter (fun w => !decide (w.id = id)) = l2 :=
          List.filter_eq_self.mpr (fun a ha => by simp [hl2 a ha])
        have hfil : (l1 ++ u :: l2).filter (fun w => w.id ≠ id) = l1 ++ l2 := by
          rw [List.filter_append, List.filter_cons]
          simp [hid, h1f, h2f]
        rw [hfil]
        rw [adminCount_append, adminCount_cons] at hge
        rw [adminCount_append]
        cases hur : u.role with
        | user =>
          rw [hur] at hge
          simp at hge
          omega
        | admin =>
          have hcnt : ¬ adminCount (l1 ++ u :: l2) ≤ 1 := fun hle =>
            h2 ⟨hur, hle⟩
          rw [adminCount_append, adminCount_cons] at hcnt
          rw [hur, if_pos rfl] at hcnt
          omega



/-- C5 (amended): with exactly one admin, demoting them fails with
`LastAdminError("demote")` and deleting them fails with
`LastAdminError("delete")` when they own no orders (with
`UserHasOrdersError` when they do), each leaving the store unchanged;
with a second admin present both operations succeed; and under unique
usernames/ids both operations preserve the at-least-one-admin
invariant. -/
theorem C5_amended_thm (db : List DbUser) :
    (∀ username u, get_user db username = some u →
        u.role = UserRole.admin → adminCount db = 1 →
        updated_new_role db username UserRole.user =
          (.error (.lastAdmin username "demote"), db))
  ∧ (∀ id u, db.find? (fun w => w.id == id) = some u → u.orders = [] →
        u.role = UserRole.admin → adminCount db = 1 →
        get_delete_user db id =
          (.error (.lastAdmin u.username "delete"), db))
  ∧ (∀ id u, db.find? (fun w => w.id == id) = some u → u.orders ≠ [] →
        get_delete_user db id =
          (.error (.userHasOrders u.username), db))
  ∧ (∀ username u, get_user db username = some u →
        u.role = UserRole.admin → 2 ≤ adminCount db →
        (updated_new_role db username UserRole.user).1 =
          .ok (some { u with role := UserRole.user }))
  ∧ (∀ id u, db.find? (fun w => w.id == id) = some u → u.orders = [] →
        2 ≤ adminCount db →
        get_delete_user db id = (.ok none, db.filter (fun w => w.id ≠ id)))
  ∧ ((db.map (fun w => w.username)).Nodup → 1 ≤ adminCount db →
        ∀ username role, 1 ≤ adminCount (updated_new_role db username role).2)
  ∧ ((db.map (fun w => w.id)).Nodup → 1 ≤ adminCount db →
        ∀ id, 1 ≤ adminCount (get_delete_user db id).2) := by
  refine ⟨?_, ?_, ?_, ?_, ?_, ?_, ?_⟩
  · intro username u hg hr hc
    rw [updated_new_role, hg]
    simp [hr, hc]
  · intro id u hf ho hr hc
    rw [get_delete_user, hf]
    simp [ho, hr, hc]
  · intro id u hf ho
    rw [get_delete_user, hf]
    simp [ho]
  · intro username u hg hr h2c
    rw [updated_new_role, hg]
    have hle : ¬ adminCount db ≤ 1 := by omega
    simp [hr, hle]
  · intro id u hf ho h2c
    rw [get_delete_user, hf]
    have hle : ¬ adminCount db ≤ 1 := by omega
    simp [ho, hle]
  · intro hnd hge username role
    exact admin_preserved_update db hnd hge username role
  · intro hnd hge id
    exact admin_preserved_delete db hnd hge id


lemma get_user_map (f : DbUser → DbUser)
    (hf : ∀ w, (f w).username = w.username) (db : List DbUser)
    (un : String) : get_user (db.map f) un = (get_user db un).map f := by
  rw [get_user, get_user, List.find?_map]
  have hp : ((fun u => u.username == un) ∘ f) =
      (fun u => u.username == un) := by
    funext w
    simp [hf w]
  rw [hp]

lemma refresh_ok_inv {db : List DbUser} {R1 : Token} {n : Nat}
    {acc R2 : Token} {db' : List DbUser}
    (h : get_refresh_access_token db (.valid R1) n = .ok (acc, R2, db')) :
    ∃ un u, R1.type = TokenType.refresh ∧ R1.sub = some un ∧
      get_user db un = some u ∧
      R2 = create_refresh_token u.username n ∧
      db' = db.map (fun w =>
        if w.username == un then
          { w with
            hashed_refresh_token :=
              some (get_password_hash (create_refresh_token u.username n)) }
        else w) := by
  rw [get_refresh_access_token] at h
  by_cases ht : R1.type ≠ TokenType.refresh
  · simp [ht] at h
  · simp only [ht, if_false] at h
    split at h
    · cases h
    · rename_i un hs
      split at h
      · cases h
      · rename_i u hg
        split at h
        · cases h
        · rename_i stored hh
          split at h
          · injection h with h1
            injection h1 with h2 h3
            injection h3 with h4 h5
            exact ⟨un, u, not_not.mp ht, hs, hg, h4.symm, h5.symm⟩
          · cases h

/-- C4: refresh sessions are single-slot — after a successful refresh
consumed token R1 and stored the hash of the freshly minted R2 (fresh
jti), presenting R1 again is unauthorized; and after logout every token
carrying that user's subject is unauthorized on refresh. -/
theorem C4_refresh_rotation_and_logout :
    (∀ (db : List DbUser) (R1 : Token) (n m : Nat) (acc R2 : Token)
        (db' : List DbUser),
      get_refresh_access_token db (.valid R1) n = .ok (acc, R2, db') →
      R1.jti ≠ n →
      get_refresh_access_token db' (.valid R1) m =
        .error credentials_exception)
  ∧ (∀ (db : List DbUser) (username : String) (T : Token) (m : Nat),
      T.sub = some username →
      get_refresh_access_token (logout db username) (.valid T) m =
        .error credentials_exception) := by
  constructor
  · intro db R1 n m acc R2 db' h hjti
    obtain ⟨un, u, htype, hsub, hg, hR2, hdb'⟩ := refresh_ok_inv h
    subst hdb'
    have hpu : (u.username == un) = true := by
      rw [get_user] at hg
      have h0 := List.find?_some hg
      simpa using h0
    have huu : u.username = un := by simpa using hpu
    have hne : R1 ≠ create_refresh_token un n := fun he =>
      hjti (by rw [he]; rfl)
    rw [get_refresh_access_token]
    simp only [htype, ne_eq, not_true_eq_false, if_false, hsub]
    rw [get_user_map
      (fun w =>
        if w.username == un then
          { w with
            hashed_refresh_token :=
              some (get_password_hash (create_refresh_token u.username n)) }
        else w)
      (fun w => by by_cases hc : (w.username == un) = true <;> simp [hc])
      db un]
    rw [hg]
    simp [huu, hne, verify_password, get_password_hash]
  · intro db un T m hsub
    rw [get_refresh_access_token]
    by_cases ht : T.type ≠ TokenType.refresh
    · simp [ht]
    · simp only [ht, if_false, hsub,
        show logout db un = db.map (fun w =>
          if w.username == un then { w with hashed_refresh_token := none }
          else w) from rfl,
        get_user_map
          (fun w =>
            if w.username == un then
              { w with hashed_refresh_token := none }
            else w)
          (fun w => by
            by_cases hc : (w.username == un) = true <;> simp [hc]) db un]
      cases hg : get_user db un with
      | none => rfl
      | some u =>
        have hpu : (u.username == un) = true := by
          rw [get_user] at hg
          have h0 := List.find?_some hg
          simpa using h0
        have huu : u.username = un := by simpa using hpu
        simp [huu]

/-- C7 counterexample: an expired access-token signature yields 401
with the distinct detail `Token has expired`, not the identical generic
`Could not validate credentials` message the claim requires. -/
theorem C7_counterexample :
    get_current_user [] .expired = .error ⟨401, "Token has expired"⟩ ∧
    (⟨401, "Token has expired"⟩ : HttpError) ≠ credentials_exception :=
  ⟨rfl, by decide⟩

/-- C7 (amended): unknown-username and wrong-password logins fail with
the identical generic 401, and every `authenticate_user` failure carries
that same message; token failures are 401 as well, but an expired
signature returns the distinct detail `Token has expired` (other invalid
tokens get the generic message). -/
theorem C7_amended_thm (db : List DbUser) (username password : String) :
    (get_user db username = none →
      authenticate_user db username password = .error credentials_exception)
  ∧ (∀ u, get_user db username = some u →
      verify_password password u.hashed_password = false →
      authenticate_user db username password = .error credentials_exception)
  ∧ (∀ e, authenticate_user db username password = .error e →
      e = credentials_exception)
  ∧ get_current_user db .expired = .error ⟨401, "Token has expired"⟩
  ∧ get_current_user db .malformed = .error credentials_exception
  ∧ (⟨401, "Token has expired"⟩ : HttpError).status = 401
  ∧ (⟨401, "Token has expired"⟩ : HttpError) ≠ credentials_exception := by
  refine ⟨?_, ?_, ?_, rfl, rfl, rfl, by decide⟩
  · intro hg
    rw [authenticate_user, hg]
  · intro u hg hv
    rw [authenticate_user, hg]
    simp [hv]
  · intro e he
    rw [authenticate_user] at he
    cases hg : get_user db username with
    | none =>
      rw [hg] at he
      injection he with h1
      exact h1.symm
    | some u =>
      rw [hg] at he
      by_cases hv : verify_password password u.hashed_password
      · simp [hv] at he
      · simp [hv] at he
        exact he.symm

/-- C8: an order lookup returns a result exactly when an order with
that id belongs to the requesting user — the ownership test sits in the
find query itself — and when the order exists but belongs to someone
else the outcome is the same `none` as for a nonexistent id. -/
theorem C8_ownership_isolation (s : Store) (oid uid : Nat) :
    ((∃ o, get_order_by_id_for_user s oid uid = some o) ↔
      ∃ o ∈ s.orders, o.order_id = oid ∧ o.user_id = uid)
  ∧ (∀ o, get_order_by_id_for_user s oid uid = some o →
      o ∈ s.orders ∧ o.order_id = oid ∧ o.user_id = uid)
  ∧ ((∀ o ∈ s.orders, o.order_id = oid → o.user_id ≠ uid) →
      get_order_by_id_for_user s oid uid = none) := by
  refine ⟨?_, ?_, ?_⟩
  · rw [get_order_by_id_for_user, get_by_id_and_user]
    constructor
    · rintro ⟨o, ho⟩
      have hm := List.mem_of_find?_eq_some ho
      have hp := List.find?_some ho
      simp only [Bool.and_eq_true, beq_iff_eq] at hp
      exact ⟨o, hm, hp.1, hp.2⟩
    · rintro ⟨o, hm, h1, h2⟩
      have hs : (s.orders.find? (fun o =>
          o.order_id == oid && o.user_id == uid)).isSome = true := by
        rw [List.find?_isSome]
        exact ⟨o, hm, by simp [h1, h2]⟩
      obtain ⟨o', ho'⟩ := Option.isSome_iff_exists.mp hs
      exact ⟨o', ho'⟩
  · intro o ho
    rw [get_order_by_id_for_user, get_by_id_and_user] at ho
    have hm := List.mem_of_find?_eq_some ho
    have hp := List.find?_some ho
    simp only [Bool.and_eq_true, beq_iff_eq] at hp
    exact ⟨hm, hp.1, hp.2⟩
  · intro hall
    rw [get_order_by_id_for_user, get_by_id_and_user]
    rw [List.find?_eq_none]
    intro o hm
    simp only [Bool.and_eq_true, beq_iff_eq, not_and]
    intro h1
    exact fun h2 => hall o hm h1 h2

/-- C9: product reads are cache-aside — a cache hit returns the cached
snapshot without touching the store; a miss reads the store and caches
the product with TTL 600 only when found (no negative caching, so
repeated misses keep reaching the store); a successful update deletes
the cache entry for the id rather than refreshing it. -/
theorem C9_cache_aside (db : List Product) (c : Cache) (pid : Nat) :
    (∀ e, c.read pid = some e →
      get_product_by_id db c pid = ⟨some e.snapshot, c, false⟩)
  ∧ (∀ p, c.read pid = none → db.find? (fun q => q.id == pid) = some p →
      get_product_by_id db c pid = ⟨some p, c.write pid ⟨p, 600⟩, true⟩)
  ∧ (c.read pid = none → db.find? (fun q => q.id == pid) = none →
      get_product_by_id db c pid = ⟨none, c, true⟩ ∧
      (get_product_by_id db (get_product_by_id db c pid).cache pid).storeRead
        = true)
  ∧ (∀ u p, db.find? (fun q => q.id == pid) = some p →
      (get_updated_product db c pid u).2.2 = c.del pid ∧
      (Cache.del c pid).read pid = none) := by
  refine ⟨?_, ?_, ?_, ?_⟩
  · intro e he
    rw [get_product_by_id, he]
  · intro p hc hf
    rw [get_product_by_id, hc, hf]
  · intro hc hf
    have h1 : get_product_by_id db c pid = ⟨none, c, true⟩ := by
      rw [get_product_by_id, hc, hf]
    refine ⟨h1, ?_⟩
    rw [h1]
    show (get_product_by_id db c pid).storeRead = true
    rw [h1]
  · intro u p hf
    refine ⟨by rw [get_updated_product, hf], ?_⟩
    rw [Cache.read, Cache.del]
    rw [List.find?_eq_none.mpr ?_]
    · rfl
    · intro x hx
      have hx2 := (List.mem_filter.mp hx).2
      simp only [decide_not] at hx2 ⊢
      simpa using hx2

/-- C2 witness: a concrete failing order (unknown product id 2) leaves
the concrete store unchanged. -/
theorem C2_witness :
    create_order (⟨[⟨1, "P", none, 5, 4, "g", true⟩], []⟩ : Store) 1
        [⟨2, 1⟩] =
      (.error (.productNotFound 2),
        (⟨[⟨1, "P", none, 5, 4, "g", true⟩], []⟩ : Store)) ∧
    (⟨[⟨1, "P", none, 5, 4, "g", true⟩], []⟩ : Store) =
      ⟨[⟨1, "P", none, 5, 4, "g", true⟩], []⟩ :=
  ⟨by rfl, C2_create_order_all_or_nothing _ 1 [⟨2, 1⟩] (.productNotFound 2) _
    (by rfl)⟩

/-- C3 witness: ordering 3 units of a 9.99-priced product yields
total_price exactly 29.97 = 2997/100, matching the item sum and the
stored price snapshot. -/
theorem C3_witness :
    ((⟨1, 5, (2997 : ℚ)/100, OrderState.pending,
        [⟨1, 3, (999 : ℚ)/100⟩]⟩ : PersistedOrder)).total_price =
      ((((⟨1, 5, (2997 : ℚ)/100, OrderState.pending,
        [⟨1, 3, (999 : ℚ)/100⟩]⟩ : PersistedOrder)).items.map
          (fun oi => oi.unit_price * (oi.quantity : Money))).sum) ∧
    ∀ oi ∈ (⟨1, 5, (2997 : ℚ)/100, OrderState.pending,
        [⟨1, 3, (999 : ℚ)/100⟩]⟩ : PersistedOrder).items,
      ∃ p ∈ ([⟨1, "P", none, (999 : ℚ)/100, 20, "g", true⟩] : List Product),
        oi.product_id = p.id ∧ oi.unit_price = p.price :=
  C3_total_price ⟨[⟨1, "P", none, (999 : ℚ)/100, 20, "g", true⟩], []⟩ 5
    [⟨1, 3⟩]
    ⟨1, 5, (2997 : ℚ)/100, OrderState.pending, [⟨1, 3, (999 : ℚ)/100⟩]⟩
    ⟨[⟨1, "P", none, (999 : ℚ)/100, 17, "g", true⟩],
      [⟨1, 5, (2997 : ℚ)/100, OrderState.pending, [⟨1, 3, (999 : ℚ)/100⟩]⟩]⟩
    (by
      simp [create_order, validateItems, buildItems, productMapGet,
        get_many_by_ids_with_lock, applyDecrements, decrementStock, totalOf,
        List.find?, List.filter]
      norm_num)

/-- C6 witness: the empty item list fails with `EmptyOrder`. -/
theorem C6_witness :
    (create_order (⟨[], []⟩ : Store) 1 []).1 = .error .emptyOrder :=
  (C6_validation ⟨[], []⟩ 1 []).1.mpr rfl

/-- C8 witness: user 2 asking for user 1's order 10 gets `none`. -/
theorem C8_witness :
    get_order_by_id_for_user
      (⟨[], [⟨10, 1, 5, OrderState.pending, []⟩]⟩ : Store) 10 2 = none :=
  (C8_ownership_isolation ⟨[], [⟨10, 1, 5, OrderState.pending, []⟩]⟩ 10
    2).2.2 (by decide)

/-- C9 witness: concrete miss-then-populate (TTL 600), hit-from-cache,
and update-invalidates-cache runs. -/
theorem C9_witness :
    get_product_by_id [⟨1, "A", none, 5, 3, "g", true⟩] (⟨[]⟩ : Cache) 1 =
      ⟨some ⟨1, "A", none, 5, 3, "g", true⟩,
        Cache.write ⟨[]⟩ 1 ⟨⟨1, "A", none, 5, 3, "g", true⟩, 600⟩, true⟩ ∧
    get_product_by_id [⟨1, "A", none, 5, 3, "g", true⟩]
        (⟨[(1, ⟨⟨1, "A", none, 5, 3, "g", true⟩, 600⟩)]⟩ : Cache) 1 =
      ⟨some ⟨1, "A", none, 5, 3, "g", true⟩,
        ⟨[(1, ⟨⟨1, "A", none, 5, 3, "g", true⟩, 600⟩)]⟩, false⟩ ∧
    (get_updated_product [⟨1, "A", none, 5, 3, "g", true⟩]
        (⟨[(1, ⟨⟨1, "A", none, 5, 3, "g", true⟩, 600⟩)]⟩ : Cache) 1
        ⟨none, none, none, some 9, none, none⟩).2.2 =
      Cache.del ⟨[(1, ⟨⟨1, "A", none, 5, 3, "g", true⟩, 600⟩)]⟩ 1 :=
  ⟨(C9_cache_aside [⟨1, "A", none, 5, 3, "g", true⟩] ⟨[]⟩ 1).2.1
      ⟨1, "A", none, 5, 3, "g", true⟩ rfl rfl,
   (C9_cache_aside [⟨1, "A", none, 5, 3, "g", true⟩]
      ⟨[(1, ⟨⟨1, "A", none, 5, 3, "g", true⟩, 600⟩)]⟩ 1).1
      ⟨⟨1, "A", none, 5, 3, "g", true⟩, 600⟩ rfl,
   ((C9_cache_aside [⟨1, "A", none, 5, 3, "g", true⟩]
      ⟨[(1, ⟨⟨1, "A", none, 5, 3, "g", true⟩, 600⟩)]⟩ 1).2.2.2
      ⟨none, none, none, some 9, none, none⟩
      ⟨1, "A", none, 5, 3, "g", true⟩ rfl).1⟩

/-- C7 witness: concrete unknown-user and wrong-password logins both
produce the generic 401, and an expired token produces the distinct
detail. -/
theorem C7_amended_witness :
    authenticate_user [] "ghost" "pw" = .error credentials_exception ∧
    authenticate_user [⟨1, "alice", UserRole.user, ⟨"secret"⟩, none, true,
        []⟩] "alice" "wrong" = .error credentials_exception ∧
    get_current_user [⟨1, "alice", UserRole.user, ⟨"secret"⟩, none, true,
        []⟩] .expired = .error ⟨401, "Token has expired"⟩ :=
  ⟨(C7_amended_thm [] "ghost" "pw").1 rfl,
   (C7_amended_thm [⟨1, "alice", UserRole.user, ⟨"secret"⟩, none, true, []⟩]
      "alice" "wrong").2.1 ⟨1, "alice", UserRole.user, ⟨"secret"⟩, none,
        true, []⟩ rfl (by decide),
   (C7_amended_thm [⟨1, "alice", UserRole.user, ⟨"secret"⟩, none, true, []⟩]
      "alice" "wrong").2.2.2.1⟩

/-- C4 witness: a concrete rotated-away token and a concrete
logged-out token both fail refresh with the generic 401. -/
theorem C4_witness :
    get_refresh_access_token
        [⟨1, "alice", UserRole.user, ⟨"pw"⟩,
          some ⟨⟨some "alice", TokenType.refresh, 1⟩⟩, true, []⟩]
        (.valid ⟨some "alice", TokenType.refresh, 0⟩) 9 =
      .error credentials_exception ∧
    get_refresh_access_token
        (logout [⟨1, "alice", UserRole.user, ⟨"pw"⟩,
          some ⟨⟨some "alice", TokenType.refresh, 0⟩⟩, true, []⟩] "alice")
        (.valid ⟨some "alice", TokenType.refresh, 0⟩) 9 =
      .error credentials_exception :=
  ⟨C4_refresh_rotation_and_logout.1
      [⟨1, "alice", UserRole.user, ⟨"pw"⟩,
        some ⟨⟨some "alice", TokenType.refresh, 0⟩⟩, true, []⟩]
      ⟨some "alice", TokenType.refresh, 0⟩ 1 9
      ⟨some "alice", TokenType.access, 2⟩
      ⟨some "alice", TokenType.refresh, 1⟩
      [⟨1, "alice", UserRole.user, ⟨"pw"⟩,
        some ⟨⟨some "alice", TokenType.refresh, 1⟩⟩, true, []⟩]
      (by rfl) (by decide),
   C4_refresh_rotation_and_logout.2
      [⟨1, "alice", UserRole.user, ⟨"pw"⟩,
        some ⟨⟨some "alice", TokenType.refresh, 0⟩⟩, true, []⟩]
      "alice" ⟨some "alice", TokenType.refresh, 0⟩ 9 rfl⟩

/-- C5 witness: with admin root and plain user bob, demoting or
deleting root fails with the last-admin error; with bob promoted to
admin, demoting root succeeds. -/
theorem C5_amended_witness :
    updated_new_role
        [⟨1, "root", UserRole.admin, ⟨"p1"⟩, none, true, []⟩,
         ⟨2, "bob", UserRole.user, ⟨"p2"⟩, none, true, []⟩]
        "root" UserRole.user =
      (.error (.lastAdmin "root" "demote"),
        [⟨1, "root", UserRole.admin, ⟨"p1"⟩, none, true, []⟩,
         ⟨2, "bob", UserRole.user, ⟨"p2"⟩, none, true, []⟩]) ∧
    get_delete_user
        [⟨1, "root", UserRole.admin, ⟨"p1"⟩, none, true, []⟩,
         ⟨2, "bob", UserRole.user, ⟨"p2"⟩, none, true, []⟩] 1 =
      (.error (.lastAdmin "root" "delete"),
        [⟨1, "root", UserRole.admin, ⟨"p1"⟩, none, true, []⟩,
         ⟨2, "bob", UserRole.user, ⟨"p2"⟩, none, true, []⟩]) ∧
    (updated_new_role
        [⟨1, "root", UserRole.admin, ⟨"p1"⟩, none, true, []⟩,
         ⟨2, "bob", UserRole.admin, ⟨"p2"⟩, none, true, []⟩]
        "root" UserRole.user).1 =
      .ok (some ⟨1, "root", UserRole.user, ⟨"p1"⟩, none, true, []⟩) :=
  ⟨(C5_amended_thm _).1 "root"
      ⟨1, "root", UserRole.admin, ⟨"p1"⟩, none, true, []⟩ rfl rfl rfl,
   (C5_amended_thm _).2.1 1
      ⟨1, "root", UserRole.admin, ⟨"p1"⟩, none, true, []⟩ rfl rfl rfl rfl,
   (C5_amended_thm _).2.2.2.1 "root"
      ⟨1, "root", UserRole.admin, ⟨"p1"⟩, none, true, []⟩ rfl rfl
      (by decide)⟩

end ECommerce
